import Mathlib

/-!
Verification of the PIC runtime behavioral-security core.

This file is a shallow embedding of the decision-pipeline components of the
PIC repository (package `pic` under `src/`): the data model (`pic/models`),
the anomaly detector and feature normalizer (`pic/brain/detector.py`,
`pic/brain/normalizer.py`), the baseline profiler (`pic/brain/profiler.py`),
the security validator (`pic/brain/security_validator.py`), the pattern
memory cache (`pic/brain/pattern_cache.py`), the event queue and
backpressure controller (`pic/brain/event_queue.py`,
`pic/brain/backpressure_controller.py`), the audit store
(`pic/storage/audit_store.py`), and the orchestrating brain core
(`pic/brain/core.py`).

Modelling conventions:
* Python floats (durations, scores, utilizations, times) are embedded as
  exact rationals.  `datetime` values are embedded as rational seconds;
  `isoformat`/`fromisoformat` round-tripping is modelled as the identity
  coding of those rationals.
* External cryptographic and hashing primitives (`hmac`/`hashlib`, which
  are Python standard-library code, not repository code) are abstracted as
  function parameters: an HMAC verification oracle for signed events, an
  HMAC signing function for audit records, and a digest function for
  resource signatures.  Likewise `math`-level square root used inside
  `statistics.stdev` is abstracted as a function parameter `sqrtQ`
  (the exact rational variance it is applied to is computed faithfully).
* Python dictionaries keyed by strings are embedded as association lists
  with first-key-wins lookup; mutating a value in place is embedded as a
  pointwise update.
* Mutable objects become explicit state records; every Python method that
  mutates state is embedded as a function from the old state to the new
  state (paired with its return value).
-/

set_option autoImplicit false

namespace PIC

/-- Association-list lookup by string key (first match wins), embedding a
Python dict read. -/
def alGet {α : Type} (l : List (String × α)) (k : String) : Option α :=
  match l with
  | [] => none
  | (k', v) :: rest => if k' = k then some v else alGet rest k

/-- Pointwise update of the entry with the given key, embedding an
in-place mutation of a Python dict value. -/
def alModify {α : Type} : List (String × α) → String → (α → α) →
    List (String × α)
  | [], _, _ => []
  | (k', v) :: rest, k, f =>
    if k' = k then (k', f v) :: alModify rest k f
    else (k', v) :: alModify rest k f

/-- Set the value stored under a key: update it in place if present,
append the binding otherwise (Python `d[k] = v`). -/
def alSet {α : Type} (l : List (String × α)) (k : String) (v : α) :
    List (String × α) :=
  match alGet l k with
  | some _ => alModify l k (fun _ => v)
  | none => l ++ [(k, v)]

/-- Remove every entry with the given key (Python `del d[k]`). -/
def alErase {α : Type} (l : List (String × α)) (k : String) :
    List (String × α) :=
  l.filter (fun p => p.1 ≠ k)

/-! ### Data model (`pic/models`) -/

/-- Argument metadata carried by a telemetry event
(`args_metadata` in `pic/models/events.py`; field layout per the
signed-event envelope of the spec, with `arg_types` the component the
pattern cache reads). -/
structure ArgsMetadata where
  arg_count : Nat
  arg_types : List String
  arg_hashes : List String
  kwarg_hashes : List (String × String)
deriving DecidableEq, Repr

/-- `TelemetryEvent` from `pic/models/events.py`: immutable record of one
function execution.  Timestamps are rational seconds; `resource_tags` is a
string-keyed integer dict. -/
structure TelemetryEvent where
  timestamp : ℚ
  event_id : String
  process_id : Int
  thread_id : Int
  function_name : String
  module_name : String
  duration_ms : ℚ
  args_metadata : ArgsMetadata
  resource_tags : List (String × Int)
  redaction_applied : Bool
  sampling_rate : ℚ
deriving DecidableEq, Repr

/-- `Decision` from `pic/models/decision.py`. -/
structure Decision where
  action : String
  reason : String
  anomaly_score : ℚ
  detector_id : Option String := none
  metadata : Option (List (String × String)) := none
deriving DecidableEq, Repr

/-- `Decision.allow` class method. -/
def Decision.allow (reason : String := "Normal behavior")
    (anomaly_score : ℚ := 0) : Decision :=
  { action := "allow", reason := reason, anomaly_score := anomaly_score }

/-- `Decision.block` class method. -/
def Decision.block (reason : String) (anomaly_score : ℚ)
    (detector_id : Option String := none) : Decision :=
  { action := "block", reason := reason, anomaly_score := anomaly_score,
    detector_id := detector_id }

/-- `Decision.is_block`. -/
def Decision.is_block (d : Decision) : Bool := d.action = "block"

/-- `Decision.is_allow`. -/
def Decision.is_allow (d : Decision) : Bool := d.action = "allow"

/-- `AuditEvent` from `pic/models/events.py`. -/
structure AuditEvent where
  timestamp : ℚ
  event_type : String
  actor : String
  action : String
  result : String
  signature : String
  target : Option String := none
  anomaly_score : Option ℚ := none
  metadata : Option (List (String × String)) := none
deriving DecidableEq, Repr

/-- The canonical, field-order-independent signable content of an audit
event: every `AuditEvent` field except `signature`
(`AuditEvent.get_signable_data`, which serializes the field dict with
sorted keys after popping `signature`). -/
structure AuditSignable where
  timestamp : ℚ
  event_type : String
  actor : String
  action : String
  result : String
  target : Option String
  anomaly_score : Option ℚ
  metadata : Option (List (String × String))
deriving DecidableEq, Repr

/-- `AuditEvent.get_signable_data`: drop the signature field, keep all
other fields (canonically ordered). -/
def AuditEvent.get_signable_data (e : AuditEvent) : AuditSignable :=
  { timestamp := e.timestamp, event_type := e.event_type, actor := e.actor,
    action := e.action, result := e.result, target := e.target,
    anomaly_score := e.anomaly_score, metadata := e.metadata }

/-- `SignedEvent` from `pic/models/integration.py`. -/
structure SignedEvent where
  event : TelemetryEvent
  signature : String
  nonce : String
  timestamp : ℚ
deriving DecidableEq, Repr

/-- `BaselineProfile` from `pic/models/baseline.py`. -/
structure BaselineProfile where
  function_name : String
  module_name : String
  version : Int
  created_at : ℚ
  updated_at : ℚ
  sample_count : Nat
  mean_duration_ms : ℚ
  std_duration_ms : ℚ
  p50_duration_ms : ℚ
  p95_duration_ms : ℚ
  p99_duration_ms : ℚ
  historical_distances : List ℚ
deriving DecidableEq, Repr

/-- `BaselineProfile.is_sufficient` (default `min_samples = 20`). -/
def BaselineProfile.is_sufficient (b : BaselineProfile)
    (min_samples : Nat := 20) : Bool :=
  b.sample_count ≥ min_samples

/-! ### Feature normalizer (`pic/brain/normalizer.py`) -/

/-- `FeatureNormalizer.normalize_value`: z-score normalization, returning
0 when the standard deviation is 0. -/
def normalize_value (value mean std : ℚ) : ℚ :=
  if std = 0 then 0 else (value - mean) / std

/-! ### Anomaly detector (`pic/brain/detector.py`) -/

/-- `AnomalyDetector._distance_to_percentile`: piecewise-linear map from a
distance in standard deviations to a percentile rank. -/
def distance_to_percentile (distance : ℚ) : ℚ :=
  if distance ≤ 0 then 50
  else if distance ≤ 1 then 50 + distance * 34
  else if distance ≤ 2 then 84 + (distance - 1) * 13.5
  else if distance ≤ 3 then 97.5 + (distance - 2) * 2.4
  else 99.9 + min 0.1 ((distance - 3) * 0.01)

/-- `AnomalyDetector.compute_anomaly_score`: normalize the duration
against the baseline, take the absolute z-distance, map it to a
percentile rank and clamp to the interval from 0 to 100. -/
def compute_anomaly_score (event : TelemetryEvent) (baseline : BaselineProfile) :
    ℚ :=
  let normalized_duration := normalize_value event.duration_ms
    baseline.mean_duration_ms baseline.std_duration_ms
  let l2_distance := |normalized_duration|
  let percentile_rank := distance_to_percentile l2_distance
  min 100 (max 0 percentile_rank)

/-- `AnomalyDetector.is_anomaly`. -/
def is_anomaly (threshold_percentile score : ℚ) : Bool :=
  score ≥ threshold_percentile

/-! ### Baseline profiler (`pic/brain/profiler.py`) -/

/-- Per-key sample series held by `BaselineProfiler._samples`
(key to list of durations). -/
def ProfilerSamples : Type := String → List ℚ

/-- The empty sample store. -/
def ProfilerSamples.init : ProfilerSamples := fun _ => []

/-- The bucketing key used by the profiler: `module.function`. -/
def profilerKey (function_name module_name : String) : String :=
  module_name ++ "." ++ function_name

/-- `BaselineProfiler.add_sample`: append the event duration to the
per-key series. -/
def add_sample (st : ProfilerSamples) (event : TelemetryEvent) :
    ProfilerSamples :=
  fun k =>
    if k = profilerKey event.function_name event.module_name then
      st k ++ [event.duration_ms]
    else st k

/-- `BaselineProfiler.get_sample_count`. -/
def get_sample_count (st : ProfilerSamples)
    (function_name module_name : String) : Nat :=
  (st (profilerKey function_name module_name)).length

/-- Arithmetic mean of a list of rationals (`statistics.mean`). -/
def listMean (l : List ℚ) : ℚ := l.sum / l.length

/-- Exact sample variance with Bessel correction, the quantity whose
square root `statistics.stdev` returns (defined for lists of length at
least 2). -/
def sampleVariance (l : List ℚ) : ℚ :=
  ((l.map (fun x => (x - listMean l) ^ 2)).sum) / ((l.length : ℚ) - 1)

/-- `BaselineProfiler.compute_baseline`.  `sqrtQ` abstracts the square
root performed inside the standard-library `statistics.stdev`; the exact
rational variance it is applied to is computed here.  `now` stands for
`datetime.now()`. -/
def compute_baseline (sqrtQ : ℚ → ℚ) (min_samples : Nat) (now : ℚ)
    (st : ProfilerSamples) (function_name module_name : String) :
    Option BaselineProfile :=
  let samples := st (profilerKey function_name module_name)
  if samples.length < min_samples then none
  else
    let mean := listMean samples
    let std := if samples.length > 1 then sqrtQ (sampleVariance samples) else 0
    let sorted_samples := samples.insertionSort (· ≤ ·)
    some
      { function_name := function_name
        module_name := module_name
        version := 1
        created_at := now
        updated_at := now
        sample_count := samples.length
        mean_duration_ms := mean
        std_duration_ms := std
        p50_duration_ms := sorted_samples.getD (samples.length / 2) 0
        p95_duration_ms := sorted_samples.getD (samples.length * 95 / 100) 0
        p99_duration_ms := sorted_samples.getD (samples.length * 99 / 100) 0
        historical_distances := [] }

/-! ### Security validator (`pic/brain/security_validator.py`) -/

/-- Construction parameters of `SecurityValidator` (`nonce_expiry_seconds`
default 300, `max_nonce_cache` default 100000). -/
structure ValidatorConfig where
  nonce_expiry_seconds : ℚ := 300
  max_nonce_cache : Nat := 100000
deriving Repr

/-- Mutable state of a `SecurityValidator`: the seen-nonce set, the
insertion-ordered nonce/timestamp deque, and the statistics counters. -/
structure ValidatorState where
  seen_nonces : List String := []
  nonce_timestamps : List (String × ℚ) := []
  total_validations : Nat := 0
  valid_events : Nat := 0
  invalid_signatures : Nat := 0
  replay_attacks : Nat := 0
  expired_events : Nat := 0
deriving Repr

/-- The loop inside `SecurityValidator.cleanup_old_nonces`: pop entries
from the front of the deque while their timestamp is strictly below the
cutoff, discarding each popped nonce from the seen set.  Returns the new
deque, the new seen set and the removed count. -/
def cleanup_loop (cutoff : ℚ) :
    List (String × ℚ) → List String → List (String × ℚ) × List String × Nat
  | [], seen => ([], seen, 0)
  | (n, t) :: rest, seen =>
    if t < cutoff then
      let r := cleanup_loop cutoff rest (seen.erase n)
      (r.1, r.2.1, r.2.2 + 1)
    else ((n, t) :: rest, seen, 0)

/-- `SecurityValidator.cleanup_old_nonces`: remove expired nonces from the
front of the deque (cutoff is `now - nonce_expiry_seconds`). -/
def cleanup_old_nonces (cfg : ValidatorConfig) (now : ℚ)
    (st : ValidatorState) : ValidatorState × Nat :=
  let cutoff := now - cfg.nonce_expiry_seconds
  let r := cleanup_loop cutoff st.nonce_timestamps st.seen_nonces
  ({ st with nonce_timestamps := r.1, seen_nonces := r.2.1 }, r.2.2)

/-- `SecurityValidator._add_nonce`: insert the nonce into the seen set,
append it to the deque (whose `maxlen` drops the oldest entry on
overflow), then run the cleanup sweep when the seen set exceeds 90% of
capacity. -/
def add_nonce (cfg : ValidatorConfig) (now : ℚ) (st : ValidatorState)
    (nonce : String) (timestamp : ℚ) : ValidatorState :=
  let seen' := if nonce ∈ st.seen_nonces then st.seen_nonces
               else nonce :: st.seen_nonces
  let deque' := st.nonce_timestamps ++ [(nonce, timestamp)]
  let deque'' := if deque'.length > cfg.max_nonce_cache then
                   deque'.drop (deque'.length - cfg.max_nonce_cache)
                 else deque'
  let st' := { st with seen_nonces := seen', nonce_timestamps := deque'' }
  if (st'.seen_nonces.length : ℚ) > (cfg.max_nonce_cache : ℚ) * 0.9 then
    (cleanup_old_nonces cfg now st').1
  else st'

/-- `SecurityValidator.is_replay_attack`: pure membership test on the
seen-nonce set. -/
def is_replay_attack (st : ValidatorState) (nonce : String) : Bool :=
  nonce ∈ st.seen_nonces

/-- `SecurityValidator.verify_event`.  `hmacOk` abstracts
`crypto.verify_hmac` applied to the canonical payload recomputed from
`(event, nonce, timestamp)`; `now` stands for `datetime.now()`.  The
`:.1f`-formatted age inside the expiry reason is modelled with
`toString`. -/
def verify_event (cfg : ValidatorConfig)
    (hmacOk : TelemetryEvent → String → ℚ → String → Bool) (now : ℚ)
    (st : ValidatorState) (se : SignedEvent) :
    (Bool × String) × ValidatorState :=
  let st1 := { st with total_validations := st.total_validations + 1 }
  let age_seconds := now - se.timestamp
  if age_seconds > cfg.nonce_expiry_seconds then
    ((false, "Event expired (age: " ++ toString age_seconds ++ "s)"),
      { st1 with expired_events := st1.expired_events + 1 })
  else if is_replay_attack st1 se.nonce then
    ((false, "Replay attack detected"),
      { st1 with replay_attacks := st1.replay_attacks + 1 })
  else if hmacOk se.event se.nonce se.timestamp se.signature then
    ((true, "Valid signature"),
      add_nonce cfg now { st1 with valid_events := st1.valid_events + 1 }
        se.nonce se.timestamp)
  else
    ((false, "Invalid signature"),
      { st1 with invalid_signatures := st1.invalid_signatures + 1 })

/-! ### Pattern memory cache (`pic/brain/pattern_cache.py`) -/

/-- `PatternFingerprint` dataclass. -/
structure PatternFingerprint where
  function_name : String
  module_name : String
  duration_min : ℚ
  duration_max : ℚ
  arg_types : List String
  resource_signature : String
  timestamp : ℚ
  hit_count : Nat := 0
deriving DecidableEq, Repr

/-- `PatternFingerprint.to_key`. -/
def PatternFingerprint.to_key (p : PatternFingerprint) : String :=
  p.function_name ++ ":" ++ p.module_name

/-- `PatternFingerprint.matches`: weighted fuzzy similarity against an
event (total weight is always 1). -/
def PatternFingerprint.fuzzy_match (p : PatternFingerprint)
    (event : TelemetryEvent) (threshold : ℚ := 0.85) : Bool :=
  let s1 : ℚ := if event.function_name = p.function_name then 0.3 else 0
  let s2 : ℚ := if event.module_name = p.module_name then 0.2 else 0
  let s3 : ℚ :=
    if p.duration_min ≤ event.duration_ms ∧ event.duration_ms ≤ p.duration_max
    then 0.3
    else if p.duration_min * 0.8 ≤ event.duration_ms ∧
            event.duration_ms ≤ p.duration_max * 1.2 then 0.15
    else 0
  let s4 : ℚ :=
    if event.args_metadata.arg_types = p.arg_types then 0.2
    else if event.args_metadata.arg_types.length = p.arg_types.length then 0.1
    else 0
  let similarity := (s1 + s2 + s3 + s4) / 1
  similarity ≥ threshold

/-- Construction parameters of `PatternMemoryCache` (`ttl_seconds`
default 1800, `max_size` default 10000). -/
structure CacheConfig where
  ttl_seconds : ℚ := 1800
  max_size : Nat := 10000
deriving Repr

/-- Mutable state of `PatternMemoryCache`: the fingerprint dict, the
access-time dict and the statistics counters. -/
structure CacheState where
  cache : List (String × PatternFingerprint) := []
  access_times : List (String × ℚ) := []
  hits : Nat := 0
  misses : Nat := 0
  evictions : Nat := 0
deriving Repr

/-- `PatternMemoryCache._create_fingerprint`.  `resourceHash` abstracts
the `hashlib.md5` digest of the stringified, key-sorted resource tags;
it is applied to the key-sorted tag list.  `now` stands for
`time.time()`. -/
def create_fingerprint (resourceHash : List (String × Int) → String)
    (now : ℚ) (event : TelemetryEvent) : PatternFingerprint :=
  { function_name := event.function_name
    module_name := event.module_name
    duration_min := event.duration_ms * 0.9
    duration_max := event.duration_ms * 1.1
    arg_types := event.args_metadata.arg_types
    resource_signature :=
      resourceHash (event.resource_tags.insertionSort (fun a b => a.1 ≤ b.1))
    timestamp := now
    hit_count := 1 }

/-- `PatternMemoryCache._evict_lru`: drop the entry whose access time is
minimal (first minimum in iteration order, as Python `min` returns). -/
def evict_lru (st : CacheState) : CacheState :=
  match st.access_times with
  | [] => st
  | first :: rest =>
    let lru_key := (rest.foldl
      (fun best p => if p.2 < best.2 then p else best) first).1
    { st with cache := alErase st.cache lru_key,
              access_times := alErase st.access_times lru_key,
              evictions := st.evictions + 1 }

/-- `PatternMemoryCache.add_pattern`: refresh hit count, timestamp and
access time when the key already exists, otherwise insert the new
fingerprint (after an LRU eviction when at capacity). -/
def add_pattern (cfg : CacheConfig)
    (resourceHash : List (String × Int) → String) (now : ℚ)
    (st : CacheState) (event : TelemetryEvent) : CacheState :=
  let fingerprint := create_fingerprint resourceHash now event
  let key := fingerprint.to_key
  match alGet st.cache key with
  | some _ =>
    { st with
      cache := alModify st.cache key
        (fun f => { f with hit_count := f.hit_count + 1, timestamp := now })
      access_times := alSet st.access_times key now }
  | none =>
    let st' := if st.cache.length ≥ cfg.max_size then evict_lru st else st
    { st' with cache := st'.cache ++ [(key, fingerprint)],
               access_times := alSet st'.access_times key now }

/-- `PatternMemoryCache.check_match`: look up by key; drop an expired
entry; otherwise fuzzy-match and refresh statistics.  Returns the match
result together with the mutated state. -/
def check_match (cfg : CacheConfig) (now : ℚ) (st : CacheState)
    (event : TelemetryEvent) (threshold : ℚ := 0.85) : Bool × CacheState :=
  let key := event.function_name ++ ":" ++ event.module_name
  match alGet st.cache key with
  | some pattern =>
    if now - pattern.timestamp > cfg.ttl_seconds then
      (false, { st with cache := alErase st.cache key,
                        access_times := alErase st.access_times key,
                        misses := st.misses + 1 })
    else if pattern.fuzzy_match event threshold then
      (true, { st with hits := st.hits + 1,
                       access_times := alSet st.access_times key now,
                       cache := alModify st.cache key
                         (fun f => { f with hit_count := f.hit_count + 1 }) })
    else (false, { st with misses := st.misses + 1 })
  | none => (false, { st with misses := st.misses + 1 })

/-- `PatternMemoryCache.evict_expired`: sweep out every entry past the
TTL, counting the evictions. -/
def evict_expired (cfg : CacheConfig) (now : ℚ) (st : CacheState) :
    CacheState × Nat :=
  let expired_keys := (st.cache.filter
    (fun p => now - p.2.timestamp > cfg.ttl_seconds)).map (fun p => p.1)
  let cache' := st.cache.filter
    (fun p => ¬ (now - p.2.timestamp > cfg.ttl_seconds))
  let access' := st.access_times.filter
    (fun p => ¬ (p.1 ∈ expired_keys))
  (({ st with cache := cache', access_times := access',
              evictions := st.evictions + expired_keys.length }),
    expired_keys.length)

/-! ### Event queue and backpressure (`pic/brain/event_queue.py`,
`pic/brain/backpressure_controller.py`) -/

/-- State of an `EventQueue`: the bounded deque plus its construction
parameters (`max_size` default 10000, `backpressure_threshold`
default 0.8). -/
structure EventQueueState where
  queue : List TelemetryEvent := []
  max_size : Nat := 10000
  backpressure_threshold : ℚ := 0.8
deriving Repr

/-- `EventQueue.get_utilization`. -/
def get_utilization (q : EventQueueState) : ℚ :=
  (q.queue.length : ℚ) / (q.max_size : ℚ)

/-- `EventQueue.has_backpressure`: utilization at or above the threshold. -/
def has_backpressure (q : EventQueueState) : Bool :=
  get_utilization q ≥ q.backpressure_threshold

/-- `EventQueue.enqueue`: append (the bounded deque drops the oldest
entry when full) and report whether nothing was dropped. -/
def enqueue (q : EventQueueState) (event : TelemetryEvent) :
    Bool × EventQueueState :=
  let was_full := q.queue.length ≥ q.max_size
  let queue' := q.queue ++ [event]
  let queue'' := if queue'.length > q.max_size then
                   queue'.drop (queue'.length - q.max_size)
                 else queue'
  (!was_full, { q with queue := queue'' })

/-- `BackpressureController.get_recommended_rate`: tiered sampling-rate
recommendation from utilization. -/
def get_recommended_rate (utilization : ℚ) : ℚ :=
  if utilization ≥ 0.95 then 0.1
  else if utilization ≥ 0.9 then 0.25
  else if utilization ≥ 0.8 then 0.5
  else if utilization ≥ 0.7 then 0.75
  else 1

/-! ### Audit store (`pic/storage/audit_store.py`) -/

/-- The append-only audit log as a list of entries, one per written
JSON line (the dataclass JSON round-trip is lossless, so the stored line
is modelled by the entry itself). -/
abbrev AuditLog : Type := List AuditEvent

/-- `AuditStore.log_event`: sign the signable content, set the signature
field and append.  `hmacSign` abstracts `crypto_core.hmac_sign`. -/
def log_event (hmacSign : AuditSignable → String) (log : AuditLog)
    (event : AuditEvent) : AuditLog :=
  let signature := hmacSign event.get_signable_data
  log ++ [{ event with signature := signature }]

/-- `CryptoCore.verify_signature`: recompute the HMAC and compare. -/
def verify_signature (hmacSign : AuditSignable → String)
    (data : AuditSignable) (signature : String) : Bool :=
  signature = hmacSign data

/-- `AuditStore.verify_log_integrity`: every stored entry's signature
must verify against its recomputed signable content. -/
def verify_log_integrity (hmacSign : AuditSignable → String)
    (log : AuditLog) : Bool :=
  log.all (fun e => verify_signature hmacSign e.get_signable_data e.signature)

/-- `AuditStore.export_logs`: linear scan with inclusive-bound timestamp
filtering. -/
def export_logs (log : AuditLog) (start_time : Option ℚ := none)
    (end_time : Option ℚ := none) : List AuditEvent :=
  log.filter (fun e =>
    (match start_time with
     | some s => decide (s ≤ e.timestamp)
     | none => true) &&
    (match end_time with
     | some t => decide (e.timestamp ≤ t)
     | none => true))

/-- `AuditStore.get_event_count`. -/
def get_event_count (log : AuditLog) : Nat := log.length

/-! ### Brain core (`pic/brain/core.py`) -/

/-- Tuning parameters of `BrainCore` (defaults as in the constructor;
`min_samples` is the default of the `BaselineProfiler` it constructs). -/
structure BrainConfig where
  anomaly_threshold : ℚ := 65
  soft_allow_probability : ℚ := 0.15
  enable_pattern_cache : Bool := true
  validator_cfg : ValidatorConfig := {}
  cache_cfg : CacheConfig := {}
  min_samples : Nat := 20
  maintenance_interval : Nat := 100
deriving Repr

/-- `soft_allow_threshold_low`: the soft-allow zone sits directly below
the main threshold. -/
def soft_allow_threshold_low (cfg : BrainConfig) : ℚ :=
  max (cfg.anomaly_threshold - 10) 0

/-- `soft_allow_threshold_high`. -/
def soft_allow_threshold_high (cfg : BrainConfig) : ℚ :=
  cfg.anomaly_threshold

/-- The external oracles of one `BrainCore` step: the current clock, the
pseudo-random draw consumed by the soft-allow branch, and the abstracted
cryptographic primitives. -/
structure BrainEnv where
  now : ℚ
  rand : ℚ
  hmacOk : TelemetryEvent → String → ℚ → String → Bool
  auditSign : AuditSignable → String
  resourceHash : List (String × Int) → String
  sqrtQ : ℚ → ℚ

/-- Mutable state owned by a `BrainCore` together with its collaborator
stores: the security validator, the profiler's sample series, the pattern
cache, the persistent baseline store (keyed by function and module), the
trace buffer, the audit log, the effector action counter, and the
processing counters. -/
structure BrainState where
  validator : ValidatorState := {}
  profiler : ProfilerSamples := ProfilerSamples.init
  pattern_cache : CacheState := {}
  baselines : List ((String × String) × BaselineProfile) := []
  trace_events : List TelemetryEvent := []
  audit_log : AuditLog := []
  effector_actions : Nat := 0
  events_processed : Nat := 0
  security_violations : Nat := 0
  soft_allows : Nat := 0
  cache_hits : Nat := 0

/-- `StateStore.get_baseline`: latest stored profile for the key (the
SQLite query orders by version and the store prepends new rows, so the
first association-list match is the latest). -/
def get_baseline (baselines : List ((String × String) × BaselineProfile))
    (function_name module_name : String) : Option BaselineProfile :=
  match baselines with
  | [] => none
  | (k, b) :: rest =>
    if k = (function_name, module_name) then some b
    else get_baseline rest function_name module_name

/-- `StateStore.store_baseline`: persist a new profile row for its key. -/
def store_baseline (baselines : List ((String × String) × BaselineProfile))
    (b : BaselineProfile) : List ((String × String) × BaselineProfile) :=
  ((b.function_name, b.module_name), b) :: baselines

/-- `BrainCore._log_decision`: append a signed audit record of the given
event type for a decision. -/
def log_decision (env : BrainEnv) (st : BrainState) (decision : Decision)
    (event_type : String) : BrainState :=
  { st with audit_log := (log_event env.auditSign st.audit_log
      { timestamp := env.now, event_type := event_type, actor := "system",
        action := decision.action, result := "success", signature := "" }) }

/-- `BrainCore._log_security_alert`: append a signed audit record of type
`security_violation`. -/
def log_security_alert (env : BrainEnv) (st : BrainState) (reason : String) :
    BrainState :=
  { st with audit_log := (log_event env.auditSign st.audit_log
      { timestamp := env.now, event_type := "security_violation",
        actor := "security_validator", action := "block", result := reason,
        signature := "" }) }

/-- `TraceStore.add_event` as seen from the core: the event enters the
trace buffer. -/
def trace_add_event (st : BrainState) (event : TelemetryEvent) : BrainState :=
  { st with trace_events := st.trace_events ++ [event] }

/-- `BrainCore._perform_maintenance`: expire stale detectors (the
detectors table is not part of the modelled state) and sweep expired
patterns from the cache. -/
def perform_maintenance (cfg : BrainConfig) (env : BrainEnv)
    (st : BrainState) : BrainState :=
  { st with pattern_cache :=
      (evict_expired cfg.cache_cfg env.now st.pattern_cache).1 }

/-- The scoring branch of `BrainCore.process_event` (steps 4 to 7):
score, decide with the soft-allow draw, execute the effector action,
log, and run periodic maintenance. -/
def process_scored (cfg : BrainConfig) (env : BrainEnv) (st : BrainState)
    (event : TelemetryEvent) (baseline : BaselineProfile) :
    Decision × BrainState :=
  let score := compute_anomaly_score event baseline
  let (decision, st1) :=
    if score < soft_allow_threshold_low cfg then
      let decision := Decision.allow "Normal behavior" score
      let st' := if cfg.enable_pattern_cache then
          { st with pattern_cache :=
              (add_pattern cfg.cache_cfg env.resourceHash env.now
                st.pattern_cache event) }
        else st
      (decision, st')
    else if score < soft_allow_threshold_high cfg then
      if env.rand < cfg.soft_allow_probability then
        let decision := Decision.allow
          ("Soft-allow (borderline, score=" ++ toString score ++ ")") score
        let st' := log_decision env
          { st with soft_allows := st.soft_allows + 1 } decision "soft_allow"
        let st'' := if cfg.enable_pattern_cache then
            { st' with pattern_cache :=
                (add_pattern cfg.cache_cfg env.resourceHash env.now
                  st'.pattern_cache event) }
          else st'
        (decision, st'')
      else
        (Decision.block ("Borderline anomaly (score=" ++ toString score ++ ")")
          score, st)
    else
      (Decision.block "Anomaly detected" score, st)
  let st2 := { st1 with effector_actions := st1.effector_actions + 1 }
  let st3 := log_decision env st2 decision "detection"
  let st4 := { st3 with events_processed := st3.events_processed + 1 }
  let st5 := if st4.events_processed % cfg.maintenance_interval = 0 then
      perform_maintenance cfg env st4
    else st4
  (decision, st5)

/-- `BrainCore.process_event`: the full decision pipeline for a plain
telemetry event (cache fast path, trace buffering, baseline lookup,
training branch, scoring branch). -/
def process_event (cfg : BrainConfig) (env : BrainEnv) (st : BrainState)
    (event : TelemetryEvent) : Decision × BrainState :=
  let (cache_matched, st0) :=
    if cfg.enable_pattern_cache then
      let r := check_match cfg.cache_cfg env.now st.pattern_cache event
      (r.1, { st with pattern_cache := r.2 })
    else (false, st)
  if cache_matched then
    let decision := Decision.allow "Known legitimate pattern (cached)" 0
    let st1 := { st0 with cache_hits := st0.cache_hits + 1 }
    (decision, log_decision env st1 decision "cache_hit")
  else
    let st1 := trace_add_event st0 event
    let baseline := get_baseline st1.baselines event.function_name
      event.module_name
    match baseline with
    | some b =>
      if b.is_sufficient then process_scored cfg env st1 event b
      else process_training cfg env st1 event
    | none => process_training cfg env st1 event
where
  /-- The training branch (step 3): accumulate the sample, promote a new
  baseline when enough samples exist, allow, log, and cache the pattern. -/
  process_training (cfg : BrainConfig) (env : BrainEnv) (st : BrainState)
      (event : TelemetryEvent) : Decision × BrainState :=
    let st1 := { st with profiler := add_sample st.profiler event }
    let st2 :=
      if get_sample_count st1.profiler event.function_name event.module_name
          ≥ cfg.min_samples then
        match compute_baseline env.sqrtQ cfg.min_samples env.now st1.profiler
            event.function_name event.module_name with
        | some nb => { st1 with baselines := store_baseline st1.baselines nb }
        | none => st1
      else st1
    let decision := Decision.allow "Training mode"
    let st3 := log_decision env st2 decision "training"
    let st4 := if cfg.enable_pattern_cache then
        { st3 with pattern_cache :=
            (add_pattern cfg.cache_cfg env.resourceHash env.now
              st3.pattern_cache event) }
      else st3
    (decision, st4)

/-- `BrainCore.process_signed_event`: gate the pipeline behind the
security validator; on failure, count the violation, log a
`security_violation` audit record and block with anomaly score 1. -/
def process_signed_event (cfg : BrainConfig) (env : BrainEnv)
    (st : BrainState) (se : SignedEvent) : Decision × BrainState :=
  let r := verify_event cfg.validator_cfg env.hmacOk env.now st.validator se
  let st1 := { st with validator := r.2 }
  if r.1.1 then process_event cfg env st1 se.event
  else
    let st2 := { st1 with security_violations := st1.security_violations + 1 }
    let st3 := log_security_alert env st2 r.1.2
    (Decision.block ("Security violation: " ++ r.1.2) 1, st3)

/-- The `l2_distance` intermediate of `compute_anomaly_score`: absolute
z-distance of the event duration from the baseline mean. -/
def l2_distance (event : TelemetryEvent) (baseline : BaselineProfile) : ℚ :=
  |normalize_value event.duration_ms baseline.mean_duration_ms
    baseline.std_duration_ms|

/-! ### JSON round-trip mirrors (`to_json`/`from_json` in `pic/models`)

The JSON document written by `to_json` is modelled as a record with one
component per dict entry.  Python's `json.dumps`/`json.loads` round-trips
strings, numbers, booleans, `None`, lists and dicts losslessly, and
`datetime.fromisoformat` inverts `datetime.isoformat`, so the
timestamp components are carried as the rational instants themselves. -/

/-- The JSON document produced by `TelemetryEvent.to_json`. -/
structure TelemetryEventJson where
  timestamp : ℚ
  event_id : String
  process_id : Int
  thread_id : Int
  function_name : String
  module_name : String
  duration_ms : ℚ
  args_metadata : ArgsMetadata
  resource_tags : List (String × Int)
  redaction_applied : Bool
  sampling_rate : ℚ
deriving DecidableEq, Repr

/-- `TelemetryEvent.to_json`: serialize every field. -/
def TelemetryEvent.to_json (e : TelemetryEvent) : TelemetryEventJson :=
  { timestamp := e.timestamp, event_id := e.event_id,
    process_id := e.process_id, thread_id := e.thread_id,
    function_name := e.function_name, module_name := e.module_name,
    duration_ms := e.duration_ms, args_metadata := e.args_metadata,
    resource_tags := e.resource_tags,
    redaction_applied := e.redaction_applied,
    sampling_rate := e.sampling_rate }

/-- `TelemetryEvent.from_json`: rebuild the dataclass from the document. -/
def TelemetryEvent.from_json (j : TelemetryEventJson) : TelemetryEvent :=
  { timestamp := j.timestamp, event_id := j.event_id,
    process_id := j.process_id, thread_id := j.thread_id,
    function_name := j.function_name, module_name := j.module_name,
    duration_ms := j.duration_ms, args_metadata := j.args_metadata,
    resource_tags := j.resource_tags,
    redaction_applied := j.redaction_applied,
    sampling_rate := j.sampling_rate }

/-- The JSON document produced by `BaselineProfile.to_json`. -/
structure BaselineProfileJson where
  function_name : String
  module_name : String
  version : Int
  created_at : ℚ
  updated_at : ℚ
  sample_count : Nat
  mean_duration_ms : ℚ
  std_duration_ms : ℚ
  p50_duration_ms : ℚ
  p95_duration_ms : ℚ
  p99_duration_ms : ℚ
  historical_distances : List ℚ
deriving DecidableEq, Repr

/-- `BaselineProfile.to_json`. -/
def BaselineProfile.to_json (b : BaselineProfile) : BaselineProfileJson :=
  { function_name := b.function_name, module_name := b.module_name,
    version := b.version, created_at := b.created_at,
    updated_at := b.updated_at, sample_count := b.sample_count,
    mean_duration_ms := b.mean_duration_ms,
    std_duration_ms := b.std_duration_ms,
    p50_duration_ms := b.p50_duration_ms,
    p95_duration_ms := b.p95_duration_ms,
    p99_duration_ms := b.p99_duration_ms,
    historical_distances := b.historical_distances }

/-- `BaselineProfile.from_json`. -/
def BaselineProfile.from_json (j : BaselineProfileJson) : BaselineProfile :=
  { function_name := j.function_name, module_name := j.module_name,
    version := j.version, created_at := j.created_at,
    updated_at := j.updated_at, sample_count := j.sample_count,
    mean_duration_ms := j.mean_duration_ms,
    std_duration_ms := j.std_duration_ms,
    p50_duration_ms := j.p50_duration_ms,
    p95_duration_ms := j.p95_duration_ms,
    p99_duration_ms := j.p99_duration_ms,
    historical_distances := j.historical_distances }

/-- The JSON document produced by `Decision.to_json`. -/
structure DecisionJson where
  action : String
  reason : String
  anomaly_score : ℚ
  detector_id : Option String
  metadata : Option (List (String × String))
deriving DecidableEq, Repr

/-- `Decision.to_json`. -/
def Decision.to_json (d : Decision) : DecisionJson :=
  { action := d.action, reason := d.reason,
    anomaly_score := d.anomaly_score, detector_id := d.detector_id,
    metadata := d.metadata }

/-- `Decision.from_json`. -/
def Decision.from_json (j : DecisionJson) : Decision :=
  { action := j.action, reason := j.reason,
    anomaly_score := j.anomaly_score, detector_id := j.detector_id,
    metadata := j.metadata }

/-! ### Spec-side reference definitions and run helpers -/

/-- Modelled from the spec (section 4.4): the piecewise-linear percentile
mapping by linear interpolation, distance 0 to 50, then 50 to 84 over the
segment from 0 to 1, 84 to 97.5 over the segment from 1 to 2, and 97.5 to
99.9 over the segment from 2 to 3 (intended domain: distances between 0
and 3; beyond 3 the spec only demands an asymptotic approach to 100). -/
def spec_distance_score (d : ℚ) : ℚ :=
  if d ≤ 1 then 50 + (84 - 50) * d
  else if d ≤ 2 then 84 + (97.5 - 84) * (d - 1)
  else 97.5 + (99.9 - 97.5) * (d - 2)

/-- A sequence of `BaselineProfiler.add_sample` calls starting from the
empty sample store. -/
def run_profiler (events : List TelemetryEvent) : ProfilerSamples :=
  events.foldl add_sample ProfilerSamples.init

/-- Well-formedness of a validator state, as the code maintains it: the
nonces in the insertion-ordered deque are pairwise distinct, and every
deque nonce is in the seen set.  (A nonce can outlive its deque entry
when the bounded deque overflows, but never the other way around:
cleanup removes a nonce from the seen set only while popping its deque
entry.) -/
def validator_wf (st : ValidatorState) : Prop :=
  (st.nonce_timestamps.map Prod.fst).Nodup ∧
  ∀ p ∈ st.nonce_timestamps, p.1 ∈ st.seen_nonces

/-- A validator state reached from the initial state by a sequence of
`SecurityValidator.verify_event` calls, each with its own signature
oracle, clock reading and signed event. -/
def run_validator (cfg : ValidatorConfig)
    (calls : List ((TelemetryEvent → String → ℚ → String → Bool) × ℚ ×
      SignedEvent)) : ValidatorState :=
  calls.foldl (fun st c => (verify_event cfg c.1 c.2.1 st c.2.2).2) {}

/-- A sequence of `AuditStore.log_event` calls starting from the empty
log file. -/
def run_audit_log (hmacSign : AuditSignable → String)
    (events : List AuditEvent) : AuditLog :=
  events.foldl (log_event hmacSign) []

/-- The durations of the events of a list that fall into the profiler
bucket of the given function and module (the code keys buckets by the
joined string `module.function`). -/
def samples_for (events : List TelemetryEvent) (fn mn : String) :
    List ℚ :=
  (events.filter (fun e =>
    profilerKey e.function_name e.module_name = profilerKey fn mn)).map
    (fun e => e.duration_ms)

/-! ### Concrete fixtures used by the witnesses -/

/-- A concrete argument-metadata record. -/
def argsW : ArgsMetadata :=
  { arg_count := 1, arg_types := ["int"], arg_hashes := ["h1"],
    kwarg_hashes := [] }

/-- A concrete telemetry event with a chosen duration. -/
def eventW (d : ℚ) : TelemetryEvent :=
  { timestamp := 0, event_id := "e1", process_id := 1, thread_id := 1,
    function_name := "f", module_name := "m", duration_ms := d,
    args_metadata := argsW, resource_tags := [("io_operations", 2)],
    redaction_applied := false, sampling_rate := 1 }

/-- A concrete baseline with a chosen mean and standard deviation. -/
def baselineW (mean std : ℚ) : BaselineProfile :=
  { function_name := "f", module_name := "m", version := 1,
    created_at := 0, updated_at := 0, sample_count := 20,
    mean_duration_ms := mean, std_duration_ms := std,
    p50_duration_ms := mean, p95_duration_ms := mean,
    p99_duration_ms := mean, historical_distances := [] }

/-- A concrete audit event. -/
def auditW : AuditEvent :=
  { timestamp := 5, event_type := "detection", actor := "system",
    action := "allow", result := "success", signature := "" }

/-- A concrete oracle environment whose clock reads 301 and whose
signature oracle rejects everything. -/
def envW : BrainEnv :=
  { now := 301, rand := 0, hmacOk := fun _ _ _ _ => false,
    auditSign := fun _ => "sig", resourceHash := fun _ => "rh",
    sqrtQ := fun _ => 0 }

/-- A concrete signed event with signing timestamp 0. -/
def signedW : SignedEvent :=
  { event := eventW 50, signature := "bad", nonce := "n1", timestamp := 0 }

/-- A signature oracle that accepts exactly the signature string `ok`. -/
def hmacOkSig : TelemetryEvent → String → ℚ → String → Bool :=
  fun _ _ _ sig => sig = "ok"

/-- A concrete signed event whose signature the oracle rejects. -/
def signedBadSig : SignedEvent :=
  { event := eventW 50, signature := "bad", nonce := "n1", timestamp := 0 }

/-- A concrete signed event with the same nonce whose signature the
oracle accepts. -/
def signedOkSig : SignedEvent :=
  { event := eventW 50, signature := "ok", nonce := "n1", timestamp := 0 }

/-! ### Detector lemmas -/

theorem distance_to_percentile_ge_50 (d : ℚ) :
    50 ≤ distance_to_percentile d := by
  unfold distance_to_percentile
  split_ifs with h1 h2 h3 h4
  · norm_num
  · linarith
  · linarith
  · linarith
  · have hm : (0 : ℚ) ≤ min 0.1 ((d - 3) * 0.01) :=
      le_min (by norm_num) (by linarith)
    linarith

theorem distance_to_percentile_le_100 (d : ℚ) :
    distance_to_percentile d ≤ 100 := by
  unfold distance_to_percentile
  split_ifs with h1 h2 h3 h4
  · norm_num
  · linarith
  · linarith
  · linarith
  · have hm : min 0.1 ((d - 3) * 0.01) ≤ (0.1 : ℚ) := min_le_left _ _
    linarith

theorem distance_to_percentile_mono : Monotone distance_to_percentile := by
  intro d1 d2 h
  unfold distance_to_percentile
  split_ifs with a1 a2 b1 a3 b2 a4 b3 b4 <;>
    first
      | linarith
      | (exact add_le_add_left (min_le_min le_rfl (by linarith)) _)
      | (have hm : (0 : ℚ) ≤ min 0.1 ((d2 - 3) * 0.01) :=
           le_min (by norm_num) (by linarith)
         linarith)

theorem compute_anomaly_score_eq (event : TelemetryEvent)
    (baseline : BaselineProfile) :
    compute_anomaly_score event baseline =
      distance_to_percentile (l2_distance event baseline) := by
  simp only [compute_anomaly_score, l2_distance]
  rw [max_eq_right (le_trans (by norm_num) (distance_to_percentile_ge_50 _)),
    min_eq_right (distance_to_percentile_le_100 _)]

/-! ### Claim theorems -/

/-- Claim C3: monotonicity of the anomaly score.  For every baseline
(any standard deviation, including 0) and any two events, the one whose
duration lies strictly farther from the baseline mean in absolute value
receives an anomaly score at least as large. -/
theorem anomaly_score_monotone (A A' : TelemetryEvent)
    (B : BaselineProfile)
    (h : |A.duration_ms - B.mean_duration_ms| >
         |A'.duration_ms - B.mean_duration_ms|) :
    compute_anomaly_score A B ≥ compute_anomaly_score A' B := by
  rw [compute_anomaly_score_eq, compute_anomaly_score_eq]
  apply distance_to_percentile_mono
  unfold l2_distance normalize_value
  split_ifs with hs
  · exact le_rfl
  · rw [abs_div, abs_div]
    have hp : 0 < |B.std_duration_ms| := abs_pos.mpr hs
    rw [div_le_div_iff hp hp]
    exact mul_le_mul_of_nonneg_right (le_of_lt h) (abs_nonneg _)

/-- Witness for C3 at a concrete input: duration 60 deviates from the
mean 50 by more than duration 55 does, and its score is at least as
large. -/
theorem anomaly_score_monotone_witness :
    |(eventW 60).duration_ms - (baselineW 50 2).mean_duration_ms| >
      |(eventW 55).duration_ms - (baselineW 50 2).mean_duration_ms| ∧
    compute_anomaly_score (eventW 60) (baselineW 50 2) ≥
      compute_anomaly_score (eventW 55) (baselineW 50 2) := by
  have hgt : |(eventW 60).duration_ms - (baselineW 50 2).mean_duration_ms| >
      |(eventW 55).duration_ms - (baselineW 50 2).mean_duration_ms| := by
    show |(60 : ℚ) - 50| > |(55 : ℚ) - 50|
    rw [show |(60 : ℚ) - 50| = 10 by rw [abs_of_nonneg] <;> norm_num,
      show |(55 : ℚ) - 50| = 5 by rw [abs_of_nonneg] <;> norm_num]
    norm_num
  exact ⟨hgt, anomaly_score_monotone (eventW 60) (eventW 55)
    (baselineW 50 2) hgt⟩

/-- Claim C4: the anomaly score equals the piecewise-linear percentile
mapping of the absolute z-distance (z is 0 when the standard deviation
is 0): the spec's linear-interpolation map on distances up to 3, a value
strictly above 99.9 and at most 100 beyond distance 3, and a result
clamped to the interval from 0 to 100. -/
theorem anomaly_score_piecewise (event : TelemetryEvent)
    (B : BaselineProfile) :
    (B.std_duration_ms = 0 →
      normalize_value event.duration_ms B.mean_duration_ms
        B.std_duration_ms = 0) ∧
    (B.std_duration_ms ≠ 0 →
      normalize_value event.duration_ms B.mean_duration_ms
          B.std_duration_ms =
        (event.duration_ms - B.mean_duration_ms) / B.std_duration_ms) ∧
    (l2_distance event B ≤ 3 →
      compute_anomaly_score event B = spec_distance_score
        (l2_distance event B)) ∧
    (3 < l2_distance event B →
      99.9 < compute_anomaly_score event B ∧
      compute_anomaly_score event B ≤ 100) ∧
    0 ≤ compute_anomaly_score event B ∧
    compute_anomaly_score event B ≤ 100 := by
  have hd : 0 ≤ l2_distance event B := abs_nonneg _
  have heq := compute_anomaly_score_eq event B
  refine ⟨fun h => by unfold normalize_value; rw [if_pos h],
    fun h => by unfold normalize_value; rw [if_neg h], ?_, ?_, ?_, ?_⟩
  · intro h3
    rw [heq]
    unfold distance_to_percentile spec_distance_score
    split_ifs <;> linarith
  · intro h3
    rw [heq]
    unfold distance_to_percentile
    rw [if_neg (by linarith), if_neg (by linarith), if_neg (by linarith),
      if_neg (by linarith)]
    constructor
    · have hm : (0 : ℚ) < min 0.1 ((l2_distance event B - 3) * 0.01) :=
        lt_min (by norm_num) (by linarith)
      linarith
    · have hm : min 0.1 ((l2_distance event B - 3) * 0.01) ≤ (0.1 : ℚ) :=
        min_le_left _ _
      linarith
  · rw [heq]; linarith [distance_to_percentile_ge_50 (l2_distance event B)]
  · rw [heq]; exact distance_to_percentile_le_100 _

/-- Witness for C4 at concrete inputs: duration 53 against mean 50 and
standard deviation 2 has distance 1.5 (at most 3), so the score equals
the interpolated segment value 90.75; duration 70 has distance 10
(beyond 3), so the score is strictly above 99.9 and at most 100. -/
theorem anomaly_score_piecewise_witness :
    l2_distance (eventW 53) (baselineW 50 2) ≤ 3 ∧
    compute_anomaly_score (eventW 53) (baselineW 50 2) =
      spec_distance_score (l2_distance (eventW 53) (baselineW 50 2)) ∧
    3 < l2_distance (eventW 70) (baselineW 50 2) ∧
    99.9 < compute_anomaly_score (eventW 70) (baselineW 50 2) := by
  have h1 : l2_distance (eventW 53) (baselineW 50 2) ≤ 3 := by
    show |normalize_value (53 : ℚ) 50 2| ≤ 3
    rw [show normalize_value (53 : ℚ) 50 2 = 1.5 by
      unfold normalize_value; norm_num]
    rw [show |(1.5 : ℚ)| = 1.5 by rw [abs_of_nonneg] <;> norm_num]
    norm_num
  have h2 : 3 < l2_distance (eventW 70) (baselineW 50 2) := by
    show (3 : ℚ) < |normalize_value (70 : ℚ) 50 2|
    rw [show normalize_value (70 : ℚ) 50 2 = 10 by
      unfold normalize_value; norm_num]
    rw [show |(10 : ℚ)| = 10 by rw [abs_of_nonneg] <;> norm_num]
    norm_num
  exact ⟨h1, (anomaly_score_piecewise (eventW 53) (baselineW 50 2)).2.2.1 h1,
    h2, ((anomaly_score_piecewise (eventW 70) (baselineW 50 2)).2.2.2.1
      h2).1⟩

/-- Claim C9: the scoring pipeline only produces scores in the interval
from 50 to 100, so a score below 50 can never come from
`compute_anomaly_score`, and with an anomaly threshold of at most 60 the
clear-normal zone (scores below the soft-allow low threshold) is
unreachable by scoring. -/
theorem anomaly_score_range (event : TelemetryEvent)
    (B : BaselineProfile) :
    50 ≤ compute_anomaly_score event B ∧
    compute_anomaly_score event B ≤ 100 ∧
    (∀ q : ℚ, q < 50 → compute_anomaly_score event B ≠ q) ∧
    (∀ thr : ℚ, thr ≤ 60 →
      ¬ (compute_anomaly_score event B <
          soft_allow_threshold_low { anomaly_threshold := thr })) := by
  have h50 : 50 ≤ compute_anomaly_score event B := by
    rw [compute_anomaly_score_eq]
    exact distance_to_percentile_ge_50 _
  have h100 : compute_anomaly_score event B ≤ 100 := by
    rw [compute_anomaly_score_eq]
    exact distance_to_percentile_le_100 _
  refine ⟨h50, h100, fun q hq hcontra => by linarith [hcontra ▸ h50], ?_⟩
  intro thr hthr hlt
  have hle : soft_allow_threshold_low { anomaly_threshold := thr } ≤ 50 := by
    unfold soft_allow_threshold_low
    exact max_le (by simp; linarith) (by norm_num)
  linarith

/-- Witness for C9 at a concrete input (threshold 60, duration 55
against mean 50 and standard deviation 5). -/
theorem anomaly_score_range_witness :
    (60 : ℚ) ≤ 60 ∧
    ¬ (compute_anomaly_score (eventW 55) (baselineW 50 5) <
        soft_allow_threshold_low { anomaly_threshold := 60 }) :=
  ⟨le_refl 60,
    (anomaly_score_range (eventW 55) (baselineW 50 5)).2.2.2 60 (le_refl 60)⟩

/-- Claim C7: the tiered recommended-rate mapping of the backpressure
controller with inclusive boundaries, and the backpressure predicate of
the event queue (utilization at or above the threshold, 0.8 by
default). -/
theorem recommended_rate_mapping :
    (∀ u : ℚ,
      ((0.95 : ℚ) ≤ u → get_recommended_rate u = 0.1) ∧
      ((0.9 : ℚ) ≤ u → u < 0.95 → get_recommended_rate u = 0.25) ∧
      ((0.8 : ℚ) ≤ u → u < 0.9 → get_recommended_rate u = 0.5) ∧
      ((0.7 : ℚ) ≤ u → u < 0.8 → get_recommended_rate u = 0.75) ∧
      (u < 0.7 → get_recommended_rate u = 1)) ∧
    get_recommended_rate 0.8 = 0.5 ∧
    get_recommended_rate 0.96 = 0.1 ∧
    get_recommended_rate 0.5 = 1 ∧
    (∀ q : EventQueueState, has_backpressure q = true ↔
      q.backpressure_threshold ≤ get_utilization q) ∧
    (∀ q : EventQueueState, q.backpressure_threshold = 0.8 →
      get_utilization q = 0.8 → has_backpressure q = true) := by
  have hmap : ∀ u : ℚ,
      ((0.95 : ℚ) ≤ u → get_recommended_rate u = 0.1) ∧
      ((0.9 : ℚ) ≤ u → u < 0.95 → get_recommended_rate u = 0.25) ∧
      ((0.8 : ℚ) ≤ u → u < 0.9 → get_recommended_rate u = 0.5) ∧
      ((0.7 : ℚ) ≤ u → u < 0.8 → get_recommended_rate u = 0.75) ∧
      (u < 0.7 → get_recommended_rate u = 1) := by
    intro u
    unfold get_recommended_rate
    refine ⟨fun h => by rw [if_pos h], fun h h' => ?_, fun h h' => ?_,
      fun h h' => ?_, fun h => ?_⟩
    · rw [if_neg (by linarith), if_pos h]
    · rw [if_neg (by linarith), if_neg (by linarith), if_pos h]
    · rw [if_neg (by linarith), if_neg (by linarith), if_neg (by linarith),
        if_pos h]
    · rw [if_neg (by linarith), if_neg (by linarith), if_neg (by linarith),
        if_neg (by linarith)]
  have hbp : ∀ q : EventQueueState, has_backpressure q = true ↔
      q.backpressure_threshold ≤ get_utilization q := by
    intro q
    unfold has_backpressure
    simp [ge_iff_le]
  refine ⟨hmap, ?_, ?_, ?_, hbp, fun q h1 h2 => (hbp q).mpr (by rw [h1, h2])⟩
  · exact ((hmap 0.8).2.2.1 (le_refl _) (by norm_num))
  · exact ((hmap 0.96).1 (by norm_num))
  · exact ((hmap 0.5).2.2.2.2 (by norm_num))

/-- Witness for C7 at concrete inputs: utilization 0.92 maps to rate
0.25 and a queue of 8 events out of 10 (utilization exactly 0.8) has
backpressure. -/
theorem recommended_rate_mapping_witness :
    get_recommended_rate 0.92 = 0.25 ∧
    has_backpressure { queue := [eventW 1, eventW 1, eventW 1, eventW 1,
      eventW 1, eventW 1, eventW 1, eventW 1], max_size := 10 } = true := by
  constructor
  · exact (recommended_rate_mapping.1 0.92).2.1 (by norm_num) (by norm_num)
  · exact (recommended_rate_mapping.2.2.2.2.2 _ rfl (by
      unfold get_utilization; norm_num))

/-- Claim C8: serializing then deserializing a `TelemetryEvent`,
`BaselineProfile` or `Decision` yields field-for-field equality. -/
theorem json_round_trip :
    (∀ e : TelemetryEvent, TelemetryEvent.from_json e.to_json = e) ∧
    (∀ b : BaselineProfile, BaselineProfile.from_json b.to_json = b) ∧
    (∀ d : Decision, Decision.from_json d.to_json = d) :=
  ⟨fun _ => rfl, fun _ => rfl, fun _ => rfl⟩

/-! ### Association-list lemmas for the pattern cache -/

theorem alGet_alModify {α : Type} (l : List (String × α)) (k k' : String)
    (f : α → α) :
    alGet (alModify l k f) k' =
      if k' = k then (alGet l k).map f else alGet l k' := by
  induction l with
  | nil => simp [alGet, alModify]
  | cons p rest ih =>
    obtain ⟨a, b⟩ := p
    by_cases hak : a = k
    · subst hak
      by_cases hkk' : k' = a
      · subst hkk'
        simp [alGet, alModify]
      · simp only [alModify, if_pos rfl, alGet, ih, if_neg hkk']
        rw [if_neg (fun hc => hkk' hc.symm), if_neg (fun hc => hkk' hc.symm)]
    · by_cases hak' : a = k'
      · subst hak'
        simp [alModify, alGet, hak]
      · simp only [alModify, if_neg hak, alGet, if_neg hak', ih]

theorem alModify_length {α : Type} (l : List (String × α)) (k : String)
    (f : α → α) : (alModify l k f).length = l.length := by
  induction l with
  | nil => rfl
  | cons p rest ih =>
    obtain ⟨a, b⟩ := p
    by_cases hak : a = k <;> simp [alModify, hak, ih]

/-- Claim C10: refreshing an already-cached pattern only bumps the hit
count and the timestamps; the stored duration range, argument types and
resource signature are unchanged, other cache entries are unchanged, the
cache size is unchanged and no eviction happens. -/
theorem add_pattern_existing_frame (cfg : CacheConfig)
    (resourceHash : List (String × Int) → String) (now : ℚ)
    (st : CacheState) (event : TelemetryEvent) (fp : PatternFingerprint)
    (h : alGet st.cache
      (event.function_name ++ ":" ++ event.module_name) = some fp) :
    alGet (add_pattern cfg resourceHash now st event).cache
        (event.function_name ++ ":" ++ event.module_name) =
      some { fp with hit_count := fp.hit_count + 1, timestamp := now } ∧
    (∀ k, k ≠ event.function_name ++ ":" ++ event.module_name →
      alGet (add_pattern cfg resourceHash now st event).cache k =
        alGet st.cache k) ∧
    (add_pattern cfg resourceHash now st event).cache.length =
      st.cache.length ∧
    (add_pattern cfg resourceHash now st event).evictions =
      st.evictions := by
  have hkey : (create_fingerprint resourceHash now event).to_key =
      event.function_name ++ ":" ++ event.module_name := rfl
  simp only [add_pattern, hkey, h]
  refine ⟨?_, ?_, ?_, ?_⟩
  · show alGet (alModify st.cache _ _) _ = _
    rw [alGet_alModify, if_pos rfl, h]
    rfl
  · intro k hk
    show alGet (alModify st.cache _ _) k = _
    rw [alGet_alModify, if_neg hk]
  · exact alModify_length _ _ _
  · trivial

/-- Witness for C10 at a concrete input: a cache holding one fingerprint
for the key of `eventW 50` is refreshed in place. -/
theorem add_pattern_existing_frame_witness :
    alGet [("f:m", create_fingerprint (fun _ => "rh") 1 (eventW 50))]
      ((eventW 50).function_name ++ ":" ++ (eventW 50).module_name) =
      some (create_fingerprint (fun _ => "rh") 1 (eventW 50)) ∧
    alGet (add_pattern {} (fun _ => "rh") 7
        { cache := [("f:m", create_fingerprint (fun _ => "rh") 1
            (eventW 50))],
          access_times := [("f:m", 1)] } (eventW 50)).cache
      ((eventW 50).function_name ++ ":" ++ (eventW 50).module_name) =
      some { create_fingerprint (fun _ => "rh") 1 (eventW 50) with
        hit_count :=
          (create_fingerprint (fun _ => "rh") 1 (eventW 50)).hit_count + 1,
        timestamp := 7 } := by
  have h : alGet [("f:m", create_fingerprint (fun _ => "rh") 1 (eventW 50))]
      ((eventW 50).function_name ++ ":" ++ (eventW 50).module_name) =
      some (create_fingerprint (fun _ => "rh") 1 (eventW 50)) := by
    simp [alGet, eventW]
  exact ⟨h, (add_pattern_existing_frame {} (fun _ => "rh") 7
    { cache := [("f:m", create_fingerprint (fun _ => "rh") 1 (eventW 50))],
      access_times := [("f:m", 1)] } (eventW 50) _ h).1⟩

/-! ### Security-path theorems -/

/-- Claim C1: whenever verification of a signed event fails,
`process_signed_event` increments the security-violation counter by
exactly one, appends exactly one audit record of type
`security_violation`, and returns a block decision with reason
`Security violation: <reason>` and anomaly score 1.0, leaving the
pattern cache, the profiler samples, the baseline store, the trace
buffer and the effector untouched. -/
theorem signed_event_violation (cfg : BrainConfig) (env : BrainEnv)
    (st : BrainState) (se : SignedEvent)
    (h : (verify_event cfg.validator_cfg env.hmacOk env.now st.validator
      se).1.1 = false) :
    (process_signed_event cfg env st se).1 =
      Decision.block ("Security violation: " ++
        (verify_event cfg.validator_cfg env.hmacOk env.now st.validator
          se).1.2) 1 ∧
    (process_signed_event cfg env st se).1.anomaly_score = 1 ∧
    (process_signed_event cfg env st se).2.security_violations =
      st.security_violations + 1 ∧
    (∃ e : AuditEvent,
      (process_signed_event cfg env st se).2.audit_log =
        st.audit_log ++ [e] ∧
      e.event_type = "security_violation" ∧ e.action = "block" ∧
      e.result = (verify_event cfg.validator_cfg env.hmacOk env.now
        st.validator se).1.2) ∧
    ((process_signed_event cfg env st se).2.audit_log.countP
        (fun e => e.event_type = "security_violation")) =
      (st.audit_log.countP (fun e => e.event_type = "security_violation"))
        + 1 ∧
    (process_signed_event cfg env st se).2.pattern_cache =
      st.pattern_cache ∧
    (process_signed_event cfg env st se).2.profiler = st.profiler ∧
    (process_signed_event cfg env st se).2.baselines = st.baselines ∧
    (process_signed_event cfg env st se).2.trace_events = st.trace_events ∧
    (process_signed_event cfg env st se).2.effector_actions =
      st.effector_actions ∧
    (process_signed_event cfg env st se).2.events_processed =
      st.events_processed ∧
    (process_signed_event cfg env st se).2.cache_hits = st.cache_hits ∧
    (process_signed_event cfg env st se).2.soft_allows = st.soft_allows := by
  simp only [process_signed_event, h, Bool.false_eq_true, if_false,
    log_security_alert, log_event]
  refine ⟨by trivial, by trivial, by trivial,
    ⟨_, by trivial, by trivial, by trivial, by trivial⟩, ?_, by trivial,
    by trivial, by trivial, by trivial, by trivial, by trivial, by trivial,
    by trivial⟩
  rw [List.countP_append]
  simp

/-- Witness for C1: with a clock at 301 and a signing timestamp of 0 the
event is expired (age 301 exceeds the 300-second window), verification
fails, and the security-violation counter goes from 0 to 1. -/
theorem signed_event_violation_witness :
    (verify_event ({} : BrainConfig).validator_cfg envW.hmacOk envW.now
      ({} : BrainState).validator signedW).1.1 = false ∧
    (process_signed_event {} envW {} signedW).2.security_violations =
      ({} : BrainState).security_violations + 1 := by
  have h : (verify_event ({} : BrainConfig).validator_cfg envW.hmacOk
      envW.now ({} : BrainState).validator signedW).1.1 = false := by
    norm_num [verify_event, envW, signedW]
  exact ⟨h, (signed_event_violation {} envW {} signedW h).2.2.1⟩

/-- The cleanup sweep erases a nonce from the seen set only while
popping a deque entry with that nonce and a timestamp strictly below the
cutoff: a nonce in the seen set none of whose deque entries is that old
survives the sweep. -/
theorem cleanup_loop_seen_mem (cutoff : ℚ) (deque : List (String × ℚ))
    (seen : List String) (n : String) (hn : n ∈ seen)
    (hd : ∀ p ∈ deque, p.1 = n → ¬ p.2 < cutoff) :
    n ∈ (cleanup_loop cutoff deque seen).2.1 := by
  induction deque generalizing seen with
  | nil => simpa [cleanup_loop] using hn
  | cons p rest ih =>
    obtain ⟨m, t⟩ := p
    simp only [cleanup_loop]
    split_ifs with ht
    · apply ih
      · have hne : n ≠ m :=
          fun hnm => hd (m, t) (List.mem_cons_self _ _) hnm.symm ht
        exact (List.mem_erase_of_ne hne).mpr hn
      · intro q hq hq1
        exact hd q (List.mem_cons_of_mem _ hq) hq1
    · exact hn

/-- The cleanup sweep preserves well-formedness: the surviving deque
nonces stay pairwise distinct and stay in the surviving seen set. -/
theorem cleanup_loop_wf (cutoff : ℚ) (deque : List (String × ℚ))
    (seen : List String)
    (hnd : (deque.map Prod.fst).Nodup)
    (hsub : ∀ p ∈ deque, p.1 ∈ seen) :
    ((cleanup_loop cutoff deque seen).1.map Prod.fst).Nodup ∧
    ∀ p ∈ (cleanup_loop cutoff deque seen).1,
      p.1 ∈ (cleanup_loop cutoff deque seen).2.1 := by
  induction deque generalizing seen with
  | nil => exact ⟨by simp [cleanup_loop], by simp [cleanup_loop]⟩
  | cons p rest ih =>
    obtain ⟨m, t⟩ := p
    rw [List.map_cons, List.nodup_cons] at hnd
    simp only [cleanup_loop]
    split_ifs with ht
    · apply ih
      · exact hnd.2
      · intro q hq
        have hne : q.1 ≠ m := by
          intro hc
          apply hnd.1
          rw [← hc]
          exact List.mem_map.mpr ⟨q, hq, rfl⟩
        exact (List.mem_erase_of_ne hne).mpr
          (hsub q (List.mem_cons_of_mem _ hq))
    · exact ⟨List.nodup_cons.mpr hnd, hsub⟩

/-- `_add_nonce` always leaves the new nonce in the seen set, provided
the deque nonces are in the seen set (the code's invariant), the nonce is
new, and its timestamp is within the freshness window of the clock:
cleanup never evicts a fresh nonce, at any occupancy. -/
theorem mem_add_nonce (cfg : ValidatorConfig) (now : ℚ)
    (st : ValidatorState) (n : String) (t : ℚ)
    (hsub : ∀ p ∈ st.nonce_timestamps, p.1 ∈ st.seen_nonces)
    (hn : n ∉ st.seen_nonces)
    (ht : ¬ t < now - cfg.nonce_expiry_seconds) :
    n ∈ (add_nonce cfg now st n t).seen_nonces := by
  have hpre : ∀ p ∈ st.nonce_timestamps ++ [(n, t)], p.1 = n →
      ¬ p.2 < now - cfg.nonce_expiry_seconds := by
    intro p hp hp1
    rcases List.mem_append.mp hp with h | h
    · exact absurd (hp1 ▸ hsub p h) hn
    · rcases List.mem_singleton.mp h with rfl
      exact ht
  simp only [add_nonce, cleanup_old_nonces]
  rw [if_neg hn]
  split_ifs <;>
    first
      | exact List.mem_cons_self n _
      | exact cleanup_loop_seen_mem _ _ _ n (List.mem_cons_self n _)
          (fun p hp hp1 => hpre p hp hp1)
      | exact cleanup_loop_seen_mem _ _ _ n (List.mem_cons_self n _)
          (fun p hp hp1 => hpre p ((List.drop_sublist _ _).subset hp) hp1)

/-- `_add_nonce` preserves well-formedness when given a new nonce. -/
theorem add_nonce_wf (cfg : ValidatorConfig) (now : ℚ)
    (st : ValidatorState) (n : String) (t : ℚ)
    (hnd : (st.nonce_timestamps.map Prod.fst).Nodup)
    (hsub : ∀ p ∈ st.nonce_timestamps, p.1 ∈ st.seen_nonces)
    (hn : n ∉ st.seen_nonces) :
    validator_wf (add_nonce cfg now st n t) := by
  have hnotin : n ∉ st.nonce_timestamps.map Prod.fst := by
    intro hmem
    obtain ⟨p, hp, hp1⟩ := List.mem_map.mp hmem
    exact hn (hp1 ▸ hsub p hp)
  have hnd' : ((st.nonce_timestamps ++ [(n, t)]).map Prod.fst).Nodup := by
    rw [List.map_append]
    exact (List.perm_append_singleton _ _).nodup_iff.mpr
      (List.nodup_cons.mpr ⟨hnotin, hnd⟩)
  have hsub' : ∀ p ∈ st.nonce_timestamps ++ [(n, t)],
      p.1 ∈ n :: st.seen_nonces := by
    intro p hp
    rcases List.mem_append.mp hp with h | h
    · exact List.mem_cons_of_mem _ (hsub p h)
    · rcases List.mem_singleton.mp h with rfl
      exact List.mem_cons_self _ _
  have hdrop_nd : (((st.nonce_timestamps ++ [(n, t)]).drop
      ((st.nonce_timestamps ++ [(n, t)]).length -
        cfg.max_nonce_cache)).map Prod.fst).Nodup :=
    List.Nodup.sublist ((List.drop_sublist _ _).map Prod.fst) hnd'
  have hdrop_sub : ∀ p ∈ (st.nonce_timestamps ++ [(n, t)]).drop
      ((st.nonce_timestamps ++ [(n, t)]).length - cfg.max_nonce_cache),
      p.1 ∈ n :: st.seen_nonces :=
    fun p hp => hsub' p ((List.drop_sublist _ _).subset hp)
  simp only [add_nonce, cleanup_old_nonces]
  rw [if_neg hn]
  split_ifs <;>
    first
      | exact ⟨hnd', hsub'⟩
      | exact ⟨hdrop_nd, hdrop_sub⟩
      | exact cleanup_loop_wf _ _ _ hnd' hsub'
      | exact cleanup_loop_wf _ _ _ hdrop_nd hdrop_sub

/-- Every `verify_event` call preserves validator well-formedness. -/
theorem validator_wf_verify (cfg : ValidatorConfig)
    (hmacOk : TelemetryEvent → String → ℚ → String → Bool) (now : ℚ)
    (st : ValidatorState) (se : SignedEvent) (hwf : validator_wf st) :
    validator_wf (verify_event cfg hmacOk now st se).2 := by
  simp only [verify_event]
  split_ifs with h1 h2 h3
  · exact hwf
  · exact hwf
  · refine add_nonce_wf cfg now _ se.nonce se.timestamp hwf.1 hwf.2 ?_
    simp only [is_replay_attack, decide_eq_true_eq] at h2
    exact h2
  · exact hwf

/-- Well-formedness propagates through any fold of `verify_event` calls. -/
theorem validator_wf_foldl (cfg : ValidatorConfig)
    (calls : List ((TelemetryEvent → String → ℚ → String → Bool) × ℚ ×
      SignedEvent)) (st : ValidatorState) (hwf : validator_wf st) :
    validator_wf (calls.foldl
      (fun s c => (verify_event cfg c.1 c.2.1 s c.2.2).2) st) := by
  induction calls generalizing st with
  | nil => exact hwf
  | cons c rest ih =>
    exact ih _ (validator_wf_verify cfg c.1 c.2.1 st c.2.2 hwf)

/-- Every reachable validator state is well-formed. -/
theorem validator_wf_run (cfg : ValidatorConfig)
    (calls : List ((TelemetryEvent → String → ℚ → String → Bool) × ℚ ×
      SignedEvent)) : validator_wf (run_validator cfg calls) :=
  validator_wf_foldl cfg calls {} ⟨List.nodup_nil, by simp⟩

/-- The replay rejection over any well-formed validator state: after a
successful first verification, a second verification with the same nonce
within the freshness window is rejected as a replay, under any signature
oracle and at any occupancy. -/
theorem replay_rejected_of_wf (cfg : ValidatorConfig)
    (hmacOk hmacOk' : TelemetryEvent → String → ℚ → String → Bool)
    (now1 now2 : ℚ) (st : ValidatorState) (se1 se2 : SignedEvent)
    (hwf : validator_wf st)
    (hnonce : se2.nonce = se1.nonce)
    (hfirst : (verify_event cfg hmacOk now1 st se1).1.1 = true)
    (hfresh : ¬ (now2 - se2.timestamp > cfg.nonce_expiry_seconds)) :
    (verify_event cfg hmacOk' now2
        (verify_event cfg hmacOk now1 st se1).2 se2).1 =
      (false, "Replay attack detected") := by
  by_cases h1 : now1 - se1.timestamp > cfg.nonce_expiry_seconds
  · simp only [verify_event, h1, if_true] at hfirst
    exact absurd hfirst (by simp)
  · by_cases h2 : is_replay_attack
        { st with total_validations := st.total_validations + 1 }
        se1.nonce = true
    · simp only [verify_event, h1, if_false, h2, if_true] at hfirst
      exact absurd hfirst (by simp)
    · by_cases h3 : hmacOk se1.event se1.nonce se1.timestamp
          se1.signature = true
      · have hstate : (verify_event cfg hmacOk now1 st se1).2 =
            add_nonce cfg now1
              { st with total_validations := st.total_validations + 1,
                        valid_events := st.valid_events + 1 }
              se1.nonce se1.timestamp := by
          simp only [verify_event, h1, h2, h3]
          simp
        have hn : se1.nonce ∉ st.seen_nonces := by
          simp only [is_replay_attack, decide_eq_true_eq] at h2
          exact h2
        have hmem : se2.nonce ∈
            (verify_event cfg hmacOk now1 st se1).2.seen_nonces := by
          rw [hstate, hnonce]
          exact mem_add_nonce cfg now1 _ se1.nonce se1.timestamp hwf.2 hn
            (by linarith)
        generalize (verify_event cfg hmacOk now1 st se1).2 = stA at hmem
        simp only [verify_event]
        rw [if_neg hfresh]
        split_ifs with hrep hsig <;>
          first
            | rfl
            | (exact absurd (by
                simp only [is_replay_attack, decide_eq_true_eq]
                exact hmem) hrep)
      · simp only [verify_event, h1, if_false, h2, h3] at hfirst
        exact absurd hfirst (by simp)

/-- Counterexample to C2 as stated: on a fresh validator, a first signed
event with an invalid signature (its nonce is therefore never recorded)
followed by a second signed event carrying the same nonce, a fresh
timestamp and a valid signature — the second verification succeeds
instead of being rejected as a replay. -/
theorem replay_claim_counterexample :
    signedBadSig.nonce = signedOkSig.nonce ∧
    ¬ ((0 : ℚ) - signedBadSig.timestamp >
        ({} : ValidatorConfig).nonce_expiry_seconds) ∧
    ¬ ((0 : ℚ) - signedOkSig.timestamp >
        ({} : ValidatorConfig).nonce_expiry_seconds) ∧
    (verify_event {} hmacOkSig 0
        (verify_event {} hmacOkSig 0 {} signedBadSig).2 signedOkSig).1 =
      (true, "Valid signature") := by
  refine ⟨rfl, by norm_num [signedBadSig], by norm_num [signedOkSig], ?_⟩
  norm_num [verify_event, hmacOkSig, signedBadSig, signedOkSig,
    is_replay_attack, add_nonce, cleanup_old_nonces, cleanup_loop, eventW]
  all_goals decide

/-- Claim C2 (amended): on any validator state reached by a sequence of
`verify_event` calls, when the first of the two verifications succeeds
(valid signature, so its nonce is recorded), a second verification
carrying the same nonce within the freshness window is rejected with
reason `Replay attack detected` — regardless of the second event's
signature and at any cache occupancy. -/
theorem replay_rejected (cfg : ValidatorConfig)
    (calls : List ((TelemetryEvent → String → ℚ → String → Bool) × ℚ ×
      SignedEvent))
    (hmacOk hmacOk' : TelemetryEvent → String → ℚ → String → Bool)
    (now1 now2 : ℚ) (se1 se2 : SignedEvent)
    (hnonce : se2.nonce = se1.nonce)
    (hfirst : (verify_event cfg hmacOk now1 (run_validator cfg calls)
      se1).1.1 = true)
    (hfresh : ¬ (now2 - se2.timestamp > cfg.nonce_expiry_seconds)) :
    (verify_event cfg hmacOk' now2
        (verify_event cfg hmacOk now1 (run_validator cfg calls) se1).2
        se2).1 =
      (false, "Replay attack detected") :=
  replay_rejected_of_wf cfg hmacOk hmacOk' now1 now2 _ se1 se2
    (validator_wf_run cfg calls) hnonce hfirst hfresh

/-- Witness for the amended C2: on the validator reached by the empty
call sequence, with an always-accepting signature oracle, the same nonce
submitted twice at time 0 is rejected the second time as a replay. -/
theorem replay_rejected_witness :
    signedOkSig.nonce = signedOkSig.nonce ∧
    (verify_event {} (fun _ _ _ _ => true) 0 (run_validator {} [])
      signedOkSig).1.1 = true ∧
    (verify_event {} (fun _ _ _ _ => true) 0
        (verify_event {} (fun _ _ _ _ => true) 0 (run_validator {} [])
          signedOkSig).2
        signedOkSig).1 = (false, "Replay attack detected") :=
  ⟨rfl, by norm_num [run_validator, verify_event, signedOkSig,
      is_replay_attack, add_nonce],
    replay_rejected {} [] (fun _ _ _ _ => true) (fun _ _ _ _ => true) 0 0
      signedOkSig signedOkSig rfl
      (by norm_num [run_validator, verify_event, signedOkSig,
        is_replay_attack, add_nonce])
      (by norm_num [signedOkSig])⟩

/-! ### Profiler and audit-ledger theorems -/

theorem foldl_add_sample (events : List TelemetryEvent)
    (init : ProfilerSamples) (k : String) :
    (events.foldl add_sample init) k =
      init k ++ (events.filter (fun e =>
        profilerKey e.function_name e.module_name = k)).map
        (fun e => e.duration_ms) := by
  induction events generalizing init with
  | nil => simp
  | cons e rest ih =>
    simp only [List.foldl_cons, ih, List.filter_cons]
    by_cases he : profilerKey e.function_name e.module_name = k
    · simp [add_sample, he]
    · have he' : ¬ k = profilerKey e.function_name e.module_name :=
        fun hc => he hc.symm
      simp [add_sample, he, he']

theorem sampleVariance_nonneg (l : List ℚ) (h : 1 < l.length) :
    0 ≤ sampleVariance l := by
  unfold sampleVariance
  apply div_nonneg
  · apply List.sum_nonneg
    intro x hx
    obtain ⟨y, _, rfl⟩ := List.mem_map.mp hx
    exact sq_nonneg _
  · have h' : (1 : ℚ) < l.length := by exact_mod_cast h
    linarith

theorem getD_mem_of_lt {α : Type} (l : List α) (i : Nat) (d : α)
    (h : i < l.length) : l.getD i d ∈ l := by
  rw [List.getD_eq_getElem l d h]
  exact List.getElem_mem h

/-- Claim C5: `compute_baseline`, run on the sample store produced by any
sequence of `add_sample` calls, returns none exactly when fewer than
`min_samples` samples were added for the key, and otherwise a profile
whose `sample_count` is the number of added samples, whose mean is their
arithmetic mean, whose standard deviation is the (abstracted) square root
of the Bessel-corrected sample variance — 0 when only one sample exists,
and non-negative in all cases — and whose p50/p95/p99 fields are the
elements of the sorted sample list at the fractional index positions,
hence themselves samples. -/
theorem baseline_characterization (sqrtQ : ℚ → ℚ)
    (hs : ∀ x, 0 ≤ x → 0 ≤ sqrtQ x) (min_samples : Nat) (now : ℚ)
    (events : List TelemetryEvent) (fn mn : String) :
    (compute_baseline sqrtQ min_samples now (run_profiler events) fn mn =
        none ↔ (samples_for events fn mn).length < min_samples) ∧
    ∀ p, compute_baseline sqrtQ min_samples now (run_profiler events)
        fn mn = some p →
      p.sample_count = (samples_for events fn mn).length ∧
      min_samples ≤ p.sample_count ∧
      p.mean_duration_ms = (samples_for events fn mn).sum /
        ((samples_for events fn mn).length : ℚ) ∧
      (1 < (samples_for events fn mn).length →
        p.std_duration_ms = sqrtQ (sampleVariance
          (samples_for events fn mn)) ∧ 0 ≤ p.std_duration_ms) ∧
      ((samples_for events fn mn).length = 1 →
        p.std_duration_ms = 0) ∧
      p.p50_duration_ms = ((samples_for events fn mn).insertionSort
        (· ≤ ·)).getD ((samples_for events fn mn).length / 2) 0 ∧
      p.p95_duration_ms = ((samples_for events fn mn).insertionSort
        (· ≤ ·)).getD ((samples_for events fn mn).length * 95 / 100) 0 ∧
      p.p99_duration_ms = ((samples_for events fn mn).insertionSort
        (· ≤ ·)).getD ((samples_for events fn mn).length * 99 / 100) 0 ∧
      (0 < (samples_for events fn mn).length →
        p.p50_duration_ms ∈ samples_for events fn mn ∧
        p.p95_duration_ms ∈ samples_for events fn mn ∧
        p.p99_duration_ms ∈ samples_for events fn mn) := by
  have hsam : (run_profiler events) (profilerKey fn mn) =
      samples_for events fn mn := by
    simpa [run_profiler, ProfilerSamples.init, samples_for] using
      foldl_add_sample events ProfilerSamples.init (profilerKey fn mn)
  set samples := samples_for events fn mn with hdef
  have hperm : List.Perm (samples.insertionSort (· ≤ ·)) samples :=
    List.perm_insertionSort _ _
  have hlen : (samples.insertionSort (· ≤ ·)).length = samples.length :=
    hperm.length_eq
  unfold compute_baseline
  rw [hsam]
  by_cases hlt : samples.length < min_samples
  · simp [hlt]
  · constructor
    · simp [hlt]
    · intro p hp
      rw [if_neg hlt] at hp
      obtain rfl : _ = p := Option.some_injective _ hp
      have hmem : ∀ i, i < samples.length →
          (samples.insertionSort (· ≤ ·)).getD i 0 ∈ samples := by
        intro i hi
        exact hperm.mem_iff.mp
          (getD_mem_of_lt _ i 0 (by rw [hlen]; exact hi))
      refine ⟨rfl, show min_samples ≤ samples.length by omega, rfl,
        fun h1 => ⟨?_, ?_⟩, fun h1 => ?_,
        rfl, rfl, rfl, fun h0 => ⟨?_, ?_, ?_⟩⟩
      · show (if samples.length > 1 then _ else _) = _
        rw [if_pos h1]
      · show 0 ≤ (if samples.length > 1 then _ else _)
        rw [if_pos h1]
        exact hs _ (sampleVariance_nonneg _ h1)
      · show (if samples.length > 1 then _ else _) = _
        rw [if_neg (by omega)]
      · exact hmem _ (by omega)
      · exact hmem _ (by omega)
      · exact hmem _ (by omega)

/-- Witness for C5 at a concrete input: twenty identical events for
function `f` in module `m`; the baseline is not none, matching the
sample count of 20. -/
theorem baseline_characterization_witness :
    (compute_baseline (fun _ => 0) 20 0
        (run_profiler (List.replicate 20 (eventW 5))) "f" "m" = none ↔
      (samples_for (List.replicate 20 (eventW 5)) "f" "m").length < 20) ∧
    compute_baseline (fun _ => 0) 20 0
      (run_profiler (List.replicate 20 (eventW 5))) "f" "m" ≠ none := by
  have h := (baseline_characterization (fun _ => 0)
    (fun _ _ => le_refl 0) 20 0 (List.replicate 20 (eventW 5)) "f" "m").1
  exact ⟨h, fun hc => absurd (h.mp hc) (by decide)⟩

theorem log_event_fold_integrity (hmacSign : AuditSignable → String)
    (events : List AuditEvent) (init : AuditLog)
    (hinit : verify_log_integrity hmacSign init = true) :
    verify_log_integrity hmacSign
      (events.foldl (log_event hmacSign) init) = true := by
  induction events generalizing init with
  | nil => simpa using hinit
  | cons e rest ih =>
    simp only [List.foldl_cons]
    apply ih
    unfold verify_log_integrity at hinit ⊢
    unfold log_event
    rw [List.all_append, hinit]
    simp [verify_signature, AuditEvent.get_signable_data]

theorem foldl_log_event_length (hmacSign : AuditSignable → String)
    (events : List AuditEvent) (init : AuditLog) :
    (events.foldl (log_event hmacSign) init).length =
      init.length + events.length := by
  induction events generalizing init with
  | nil => simp
  | cons e rest ih =>
    simp only [List.foldl_cons, ih, log_event]
    simp
    omega

/-- Claim C6: after any sequence of `log_event` calls (and no other
writes), the whole log passes `verify_log_integrity`; every entry
returned by `export_logs` carries a signature that verifies over its
signable content (all fields except the signature); exporting with no
bounds returns exactly the stored records; the entry count equals the
number of `log` calls; and a further `log_event` call only appends,
leaving every previously stored record in place. -/
theorem audit_log_integrity (hmacSign : AuditSignable → String)
    (events : List AuditEvent) (start_time end_time : Option ℚ)
    (e' : AuditEvent) :
    verify_log_integrity hmacSign (run_audit_log hmacSign events) =
      true ∧
    (∀ e ∈ export_logs (run_audit_log hmacSign events) start_time
        end_time,
      verify_signature hmacSign e.get_signable_data e.signature = true) ∧
    export_logs (run_audit_log hmacSign events) none none =
      run_audit_log hmacSign events ∧
    get_event_count (run_audit_log hmacSign events) = events.length ∧
    run_audit_log hmacSign (events ++ [e']) =
      run_audit_log hmacSign events ++
        [{ e' with signature := hmacSign e'.get_signable_data }] := by
  have hint : verify_log_integrity hmacSign
      (run_audit_log hmacSign events) = true :=
    log_event_fold_integrity hmacSign events [] rfl
  refine ⟨hint, ?_, ?_, ?_, ?_⟩
  · intro e he
    have hmem : e ∈ run_audit_log hmacSign events :=
      List.mem_of_mem_filter he
    exact List.all_eq_true.mp hint e hmem
  · unfold export_logs
    apply List.filter_eq_self.mpr
    intro e _
    rfl
  · unfold get_event_count run_audit_log
    rw [foldl_log_event_length]
    simp
  · unfold run_audit_log
    rw [List.foldl_append]
    rfl

/-- Witness for C6 at a concrete input: a single logged event verifies
and is exported unchanged up to its signature field. -/
theorem audit_log_integrity_witness :
    verify_log_integrity (fun _ => "s")
      (run_audit_log (fun _ => "s") [auditW]) = true ∧
    get_event_count (run_audit_log (fun _ => "s") [auditW]) = 1 :=
  ⟨(audit_log_integrity (fun _ => "s") [auditW] none none auditW).1,
    (audit_log_integrity (fun _ => "s") [auditW] none none auditW).2.2.2.1⟩

end PIC
